import Mathlib

/-!
Shallow embedding of the note-conversion core of `internal/convert.go`
(package `internal` of evernote2md).

Modelling conventions:
* Byte buffers (`[]byte`) are `List Char` when they hold text the pipeline
  inspects (`Content`), and `List Nat` for opaque binary payloads (`Bytes`).
* Go maps are association lists where an insert first removes the old
  binding of the key and then appends the new one (`mapInsert`, `namesSet`),
  so lookups and the one-entry-per-key invariant match Go map semantics.
* External collaborators used by `convert.go` but defined outside the file
  (base64 decoding, the naming policy `name`, `isImage`, the md5 digest,
  the HTML rewrite rules, the markdown renderer, the text/template engine,
  time formatting) are fields of the `Ext` record and are universally
  quantified in the theorems.
* A Go `panic` is modelled as `Except.error` at the outermost level of
  `Convert` / `addFrontMatter`; the error value that `Convert` *returns*
  (its second Go result) is the `Option String` component inside `.ok`.
* `time.Now()` is modelled by an explicit `now : DateTime` argument, and
  the diagnostic log line of `convertEvernoteDate` is reified as the
  `Bool` component of its result (`true` when the diagnostic was logged).
-/

set_option maxHeartbeats 1000000

namespace Evernote2md

/-- Opaque binary payloads (`[]byte` holding encoded or decoded resource data). -/
abbrev Bytes := List Nat

/-- Text buffers the pipeline inspects and rewrites (`[]byte` holding markup). -/
abbrev Content := List Char

/-- Attribute bag of a note (`enex.NoteAttributes`); absent fields are empty strings. -/
structure NoteAttributes where
  sourceUrl : String := ""
  latitude : String := ""
  longitude : String := ""
  altitude : String := ""
  source : String := ""
  deriving DecidableEq, Repr

/-- An attachment of a note (`enex.Resource`): encoded payload, MIME type and
declared name; only `data` and `mime` are read directly by `convert.go`,
the declared name is consumed through the external naming policy. -/
structure EnexResource where
  data : Bytes
  mime : String
  declaredName : String := ""
  deriving DecidableEq, Repr

/-- A parsed note (`enex.Note`), the read-only input of one conversion. -/
structure Note where
  title : String
  content : Content
  created : String
  updated : String
  tags : List String
  attributes : NoteAttributes
  resources : List EnexResource
  deriving DecidableEq, Repr

/-- Kind tag of an extracted resource (`markdown.Image` / `markdown.File`). -/
inductive RType where
  | image
  | file
  deriving DecidableEq, Repr

/-- An extracted resource (`markdown.Resource`): assigned stored filename,
kind and decoded bytes. -/
structure MdResource where
  name : String
  rType : RType
  content : Bytes
  deriving DecidableEq, Repr

/-- The resource index (`md.Media`, a Go `map[string]markdown.Resource`
keyed by the hex digest of the decoded bytes), as an association list with
at most one binding per key. -/
abbrev Media := List (String × MdResource)

/-- A calendar timestamp; models `time.Time` at the granularity the
conversion pipeline observes. -/
structure DateTime where
  year : Nat
  month : Nat
  day : Nat
  hour : Nat
  minute : Nat
  second : Nat
  deriving DecidableEq, Repr

/-- The zero `time.Time` (January 1, year 1, 00:00:00). -/
def dtZero : DateTime :=
  { year := 1, month := 1, day := 1, hour := 0, minute := 0, second := 0 }

/-- The output document (`markdown.Note`): content buffer, resource index
and computed timestamps.  A fresh one starts with the zero value of the Go
struct (empty content, empty media map, zero times). -/
structure MdNote where
  content : Content := []
  media : Media := []
  ctime : DateTime := dtZero
  mtime : DateTime := dtZero
  deriving DecidableEq, Repr

/-- Value of a decimal digit character, if it is one. -/
def digitVal (c : Char) : Option Nat :=
  if c.isDigit then some (c.toNat - 48) else none

/-- Two fixed decimal digits. -/
def num2 (a b : Char) : Option Nat := do
  let x ← digitVal a
  let y ← digitVal b
  pure (10 * x + y)

/-- Four fixed decimal digits. -/
def num4 (a b c d : Char) : Option Nat := do
  let x ← num2 a b
  let y ← num2 c d
  pure (100 * x + y)

/-- Gregorian leap-year rule used by `time.Parse` day-of-month validation. -/
def isLeapYear (y : Nat) : Bool :=
  (y % 4 = 0 && y % 100 ≠ 0) || y % 400 = 0

/-- Days in a month, leap years included. -/
def daysInMonth (y m : Nat) : Nat :=
  if m = 2 then (if isLeapYear y then 29 else 28)
  else if m = 4 ∨ m = 6 ∨ m = 9 ∨ m = 11 then 30
  else 31

/-- Range validation performed by `time.Parse`: month 1-12, day within the
month, hour 0-23, minute and second 0-59. -/
def mkDateTime (y mo d h mi s : Nat) : Option DateTime :=
  if 1 ≤ mo ∧ mo ≤ 12 ∧ 1 ≤ d ∧ d ≤ daysInMonth y mo ∧ h ≤ 23 ∧ mi ≤ 59 ∧ s ≤ 59 then
    some { year := y, month := mo, day := d, hour := h, minute := mi, second := s }
  else none

/-- `time.Parse("20060102T150405Z", s)`: a fixed 16-character compact layout
with literal `T` and `Z`, four year digits and two digits for each other
field, rejecting out-of-range components and any other shape. -/
def parseEvernoteDate (s : String) : Option DateTime :=
  match s.data with
  | [y1, y2, y3, y4, mo1, mo2, d1, d2, t, h1, h2, mi1, mi2, sc1, sc2, z] =>
    if t = 'T' ∧ z = 'Z' then do
      let y ← num4 y1 y2 y3 y4
      let mo ← num2 mo1 mo2
      let d ← num2 d1 d2
      let h ← num2 h1 h2
      let mi ← num2 mi1 mi2
      let sc ← num2 sc1 sc2
      mkDateTime y mo d h mi sc
    else none
  | _ => none

/-- Model of `convertEvernoteDate`: parse the compact layout; on failure log
a diagnostic and substitute the current wall-clock time.  `now` stands for
`time.Now()` and the `Bool` records whether the diagnostic was logged. -/
def convertEvernoteDate (now : DateTime) (evernoteDate : String) : DateTime × Bool :=
  match parseEvernoteDate evernoteDate with
  | some converted => (converted, false)
  | none => (now, true)

/-- `sub` is a leading segment of `l` (character-wise). -/
def leadsWith : List Char → List Char → Bool
  | [], _ => true
  | _ :: _, [] => false
  | a :: as, b :: bs => a = b && leadsWith as bs

/-- Fuelled scanner for non-overlapping substring occurrences; the fuel is
the length of the scanned list, which bounds the number of steps. -/
def substrCountFuel (sub : List Char) : Nat → List Char → Nat
  | 0, _ => 0
  | _ + 1, [] => 0
  | fuel + 1, c :: cs =>
    if leadsWith sub (c :: cs) then
      1 + substrCountFuel sub fuel (List.drop sub.length (c :: cs))
    else
      substrCountFuel sub fuel cs

/-- Model of `strings.Count`: non-overlapping occurrences of `sub` in `s`;
for the empty substring it is one more than the number of characters. -/
def substrCount (s sub : String) : Nat :=
  if sub.data.isEmpty then s.data.length + 1
  else substrCountFuel sub.data s.data.length s.data

/-- Modelled from the spec: the tag-substitution token.  The constant
`tagToken` is defined elsewhere in the repository (not under the provided
source); the spec calls it the single substitution token and the error
message of `NewConverter` displays it literally. -/
def tagToken : String := "\x7b\x7btag\x7d\x7d"

/-- Modelled from the spec: the default tag template, defined elsewhere in
the repository; per the spec it contains exactly one substitution token. -/
def DefaultTagTemplate : String := "`\x7b\x7btag\x7d\x7d`"

/-- The front-matter template constant of `convert.go`, verbatim. -/
def FrontMatterTemplate : String :=
  "---\ndate: '\x7b\x7b.CTime\x7d\x7d'\nupdated_at: '\x7b\x7b.MTime\x7d\x7d'\ntitle: \x7b\x7b trim .Title | quote \x7d\x7d\n\x7b\x7b- if .TagList \x7d\x7d\ntags: [ \x7b\x7b .TagList \x7d\x7d ]\n\x7b\x7b- end -\x7d\x7d\n\x7b\x7b- with .Attributes -\x7d\x7d\n\x7b\x7b- if .SourceUrl \x7d\x7d\nurl: \x7b\x7b trim .SourceUrl -\x7d\x7d\n\x7b\x7b- end -\x7d\x7d\n\x7b\x7b- if .Latitude \x7d\x7d\nlatitude: \x7b\x7b .Latitude -\x7d\x7d\n\x7b\x7b- end -\x7d\x7d\n\x7b\x7b- if .Longitude \x7d\x7d\nlongitude: \x7b\x7b .Longitude -\x7d\x7d\n\x7b\x7b- end -\x7d\x7d\n\x7b\x7b- if .Altitude \x7d\x7d\naltitude: \x7b\x7b .Altitude -\x7d\x7d\n\x7b\x7b- end -\x7d\x7d\n\x7b\x7b- if .Source \x7d\x7d\nsource: \x7b\x7b trim .Source -\x7d\x7d\n\x7b\x7b- end \x7d\x7d\n\x7b\x7b- end \x7d\x7d\n\n---\n\n"

/-- Configuration and sticky error of a conversion (`Converter`).  The
`err` field carries the first error of a conversion; the source comments
that every conversion step should check it and skip execution when set. -/
structure Converter where
  tagTemplate : String
  enableHighlights : Bool
  escapeSpecialChars : Bool
  enableFrontMatter : Bool
  frontMatterTemplate : String
  err : Option String
  deriving DecidableEq, Repr

/-- `Except.isOk` as a plain definition, to state acceptance results. -/
def exceptIsOk {ε α : Type} : Except ε α → Bool
  | .ok _ => true
  | .error _ => false

/-- Model of `NewConverter`: an empty tag template is replaced by the
default one, then the template must contain exactly one tag token. -/
def NewConverter (tagTemplate : String)
    (enableFrontMatter enableHighlights escapeSpecialChars : Bool) :
    Except String Converter :=
  let tt := if tagTemplate = "" then DefaultTagTemplate else tagTemplate
  if substrCount tt tagToken ≠ 1 then
    .error "tag format should contain exactly one \x7b\x7btag\x7d\x7d template variable"
  else
    .ok { tagTemplate := tt
          enableHighlights := enableHighlights
          escapeSpecialChars := escapeSpecialChars
          enableFrontMatter := enableFrontMatter
          frontMatterTemplate := FrontMatterTemplate
          err := none }

/-- Data record rendered by the front-matter template (the anonymous struct
of `addFrontMatter`). -/
structure FMData where
  ctime : String
  mtime : String
  title : String
  attributes : NoteAttributes
  tagList : String
  deriving DecidableEq, Repr

/-- External collaborators of `convert.go`, kept abstract exactly where the
source calls functions defined outside the provided file:
`decode` is `io.ReadAll(decoder(·))`, `isImage` the MIME classifier,
`nameExt` the naming policy `name(r)`, `hash` the hex md5 digest of the
decoded bytes, `replacerMedia` the `NewReplacerMedia` rewrite rule closed
over the media map, `rules` the remaining HTML rewrite rules in call order,
`renderMarkdown` is `markdown.Convert`, `tagHeader` the rendered tag list
prepended by `prependTags`, `tagListFM` the tag list string built by
`c.tagList` for the front matter, `renderTemplate` the text/template
parse-and-execute of the front-matter template, and `formatDate` the
`time.Time.Format` call with the front-matter layout. -/
structure Ext where
  decode : Bytes → Except String Bytes
  isImage : String → Bool
  nameExt : EnexResource → String × String
  hash : Bytes → String
  replacerMedia : Media → Content → Content
  rules : List (Content → Content)
  renderMarkdown : Content → Bool → Bool → Except String Content
  tagHeader : String → List String → Content
  tagListFM : List String → String
  renderTemplate : String → FMData → Except String String
  formatDate : DateTime → String

/-- Lookup in an association list (first binding wins; with the inserts
below there is at most one binding per key, matching a Go map). -/
def lookupKey {β : Type} (k : String) : List (String × β) → Option β
  | [] => none
  | (k', v) :: rest => if k' = k then some v else lookupKey k rest

/-- The per-call occurrence counter of `mapResources` (`names`, a Go
`map[string]int` keyed by name+extension). -/
abbrev NamesMap := List (String × Nat)

/-- Go map store for the occurrence counter: replace any old binding. -/
def namesSet (m : NamesMap) (k : String) (v : Nat) : NamesMap :=
  m.filter (fun p => p.1 ≠ k) ++ [(k, v)]

/-- Go map store for the media index: replace any old binding of the key. -/
def mapInsert (m : Media) (k : String) (v : MdResource) : Media :=
  m.filter (fun p => p.1 ≠ k) ++ [(k, v)]

/-- One record of what an iteration of the `mapResources` loop computed:
the loop index, the attachment it processed, the uniqueness-suffixed
display name, the content-hash key and the stored resource entry. -/
structure TraceEntry where
  idx : Nat
  resource : EnexResource
  display : String
  key : String
  res : MdResource
  deriving DecidableEq, Repr

/-- Result of the `mapResources` loop: final sticky error, media index and
the trace of performed iterations. -/
structure MapOut where
  err : Option String
  media : Media
  trace : List TraceEntry
  deriving Repr

/-- The loop body of `mapResources`, one recursive step per attachment.
Each iteration assigns `c.err` (clearing it on a successful decode) and
returns early on a decode failure; a run over an empty list leaves the
incoming error untouched, exactly as the Go loop does. -/
def mapLoop (E : Ext) (cntp : Nat) :
    List EnexResource → Nat → Option String → NamesMap → Media → List TraceEntry → MapOut
  | [], _, e, _, m, t => ⟨e, m, t⟩
  | r :: rs, i, _, names, m, t =>
    match E.decode r.data with
    | .error msg => ⟨some msg, m, t⟩
    | .ok p =>
      let rType := if E.isImage r.mime then RType.image else RType.file
      let base := (E.nameExt r).1
      let ext := (E.nameExt r).2
      let pair : NamesMap × String :=
        match lookupKey (base ++ ext) names with
        | some cnt => (namesSet names (base ++ ext) (cnt + 1), base ++ "-" ++ toString cnt)
        | none => (namesSet names (base ++ ext) 1, base)
      let mdr : MdResource :=
        { name := toString cntp ++ "_" ++ toString i ++ ext, rType := rType, content := p }
      mapLoop E cntp rs (i + 1) none pair.1 (mapInsert m (E.hash p) mdr)
        (t ++ [⟨i, r, pair.2, E.hash p, mdr⟩])

/-- Model of `mapResources`: run the loop over the note's attachments,
starting from the converter's current sticky error and the document's
media map.  Note that, unlike the later stages, it does not check the
sticky error before running. -/
def mapResources (E : Ext) (c : Converter) (note : Note) (md : MdNote) (cntp : Nat) :
    Converter × MdNote × List TraceEntry :=
  let out := mapLoop E cntp note.resources 0 c.err [] md.media []
  ({ c with err := out.err }, { md with media := out.media }, out.trace)

/-- Modelled from the spec: `normalizeHTML` is not part of the provided
source file.  Per the spec it is gated on the sticky error and applies the
rewrite rules in call order — the media-reference resolver first, then the
remaining rules — each rule consuming the previous rule's output, rewriting
the note body in place. -/
def normalizeHTML (E : Ext) (c : Converter) (note : Note) (md : MdNote) : Note :=
  if c.err.isSome then note
  else { note with content := E.rules.foldl (fun h rule => rule h) (E.replacerMedia md.media note.content) }

/-- Model of `toMarkdown`: gated on the sticky error; renders the note body
through the external markdown renderer, assigning the renderer's error (or
its absence) to the sticky error and storing the rendered bytes. -/
def toMarkdown (E : Ext) (c : Converter) (note : Note) (md : MdNote) : Converter × MdNote :=
  if c.err.isSome then (c, md)
  else
    match E.renderMarkdown note.content c.enableHighlights c.escapeSpecialChars with
    | .error e => ({ c with err := some e }, md)
    | .ok b => ({ c with err := none }, { md with content := b })

/-- Modelled from the spec: `prependTags` is not part of the provided
source file.  Per the spec it is gated on the sticky error and prepends the
tag list rendered through the configured tag template. -/
def prependTags (E : Ext) (c : Converter) (note : Note) (md : MdNote) : MdNote :=
  if c.err.isSome then md
  else { md with content := E.tagHeader c.tagTemplate note.tags ++ md.content }

/-- Model of `prependTitle`: gated on the sticky error; the content becomes
a level-1 heading with the unescaped title, a blank line, then the previous
content. -/
def prependTitle (c : Converter) (note : Note) (md : MdNote) : MdNote :=
  if c.err.isSome then md
  else { md with content := ("# " ++ note.title ++ "\n\n").data ++ md.content }

/-- Flush of a pending newline run: the regex `\n\x7b3,\x7d` rewrites every
maximal run of three or more newlines to exactly two, so a pending run of
`k` newlines is emitted as `min k 2` newlines. -/
def collapseAux : Nat → List Char → List Char
  | k, [] => List.replicate (min k 2) '\n'
  | k, c :: cs =>
    if c = '\n' then collapseAux (k + 1) cs
    else List.replicate (min k 2) '\n' ++ c :: collapseAux 0 cs

/-- Model of `regexp.MustCompile("\\n\x7b3,\x7d").ReplaceAllLiteral(content, "\\n\\n")`:
collapse every maximal run of three or more newlines to exactly two. -/
def collapseNl (l : List Char) : List Char := collapseAux 0 l

/-- Model of `bytes.TrimRight(content, "\n")`: drop all trailing newlines. -/
def trimRightNl (l : List Char) : List Char :=
  (l.reverse.dropWhile (fun c => c = '\n')).reverse

/-- The full content transformation of `trimSpaces`: collapse newline runs,
trim trailing newlines, re-append exactly one. -/
def trimSpacesContent (l : List Char) : List Char :=
  trimRightNl (collapseNl l) ++ ['\n']

/-- Model of `trimSpaces`: gated on the sticky error, then the content
transformation above. -/
def trimSpaces (c : Converter) (md : MdNote) : MdNote :=
  if c.err.isSome then md
  else { md with content := trimSpacesContent md.content }

/-- Model of `addDates`: gated on the sticky error; computes both
timestamps through `convertEvernoteDate`. -/
def addDates (c : Converter) (now : DateTime) (note : Note) (md : MdNote) : MdNote :=
  if c.err.isSome then md
  else { md with ctime := (convertEvernoteDate now note.created).1
                 mtime := (convertEvernoteDate now note.updated).1 }

/-- Model of `addFrontMatter`.  Faithful to the source in two ways the
spec warns about: it does NOT check the sticky error, and a template parse
or render failure panics (modelled as `Except.error`, aborting the whole
`Convert` result) instead of being returned as an error value. -/
def addFrontMatter (E : Ext) (c : Converter) (note : Note) (md : MdNote) :
    Except String MdNote :=
  let data : FMData :=
    { ctime := E.formatDate md.ctime
      mtime := E.formatDate md.mtime
      title := note.title
      attributes := note.attributes
      tagList := E.tagListFM note.tags }
  match E.renderTemplate c.frontMatterTemplate data with
  | .error e => .error e
  | .ok b => .ok { md with content := b.data ++ md.content }

/-- Model of `Convert`: the fixed stage order of the pipeline.  The result
is `.error` when the front-matter stage panicked, and otherwise `.ok` of
the final converter (carrying the sticky error), the produced document and
the returned error value `c.err`. -/
def Convert (E : Ext) (c : Converter) (note : Note) (cnt : Nat) (now : DateTime) :
    Except String (Converter × MdNote × Option String) :=
  let md0 : MdNote := { content := [], media := [], ctime := dtZero, mtime := dtZero }
  let s1 := mapResources E c note md0 cnt
  let c1 := s1.1
  let md1 := s1.2.1
  let note1 := normalizeHTML E c1 note md1
  let s2 := toMarkdown E c1 note1 md1
  let c2 := s2.1
  let md2 := s2.2
  let md3 := prependTags E c2 note1 md2
  let md4 := prependTitle c2 note1 md3
  let md5 := trimSpaces c2 md4
  let md6 := addDates c2 now note1 md5
  if c2.enableFrontMatter then
    match addFrontMatter E c2 note1 md6 with
    | .error e => .error e
    | .ok md7 => .ok (c2, md7, c2.err)
  else
    .ok (c2, md6, c2.err)

/-- A concrete instantiation of the external collaborators, used to
evaluate the model on concrete inputs: decoding is the identity, the
digest is the printed list of bytes (injective), the rewrite chain is
empty and the markdown renderer echoes its input. -/
def extOk : Ext where
  decode := fun b => .ok b
  isImage := fun m => m = "image/png"
  nameExt := fun r => (r.declaredName, ".bin")
  hash := fun b => toString b
  replacerMedia := fun _ h => h
  rules := []
  renderMarkdown := fun h _ _ => .ok h
  tagHeader := fun _ _ => []
  tagListFM := fun _ => ""
  renderTemplate := fun _ _ => .ok "FM\n"
  formatDate := fun _ => "1970-01-01 00:00:00 +0000"

/-- Like `extOk`, but the markdown renderer fails on every input. -/
def extRenderFail : Ext :=
  { extOk with renderMarkdown := fun _ _ _ => .error "render boom" }

/-- Like `extOk`, but the front-matter template engine fails on every
input, as a broken user-supplied template would make it do. -/
def extTemplateFail : Ext :=
  { extOk with renderTemplate := fun _ _ => .error "template boom" }

/-- The converter produced by `NewConverter "" false false false`. -/
def cBase : Converter where
  tagTemplate := DefaultTagTemplate
  enableHighlights := false
  escapeSpecialChars := false
  enableFrontMatter := false
  frontMatterTemplate := FrontMatterTemplate
  err := none

/-- `cBase` with front-matter rendering enabled. -/
def cFM : Converter := { cBase with enableFrontMatter := true }

/-- A concrete note with no attachments and malformed timestamps. -/
def noteEmpty : Note where
  title := "T"
  content := []
  created := "garbage"
  updated := "garbage"
  tags := []
  attributes := {}
  resources := []

/-- A concrete note with one decodable attachment. -/
def noteOneRes : Note :=
  { noteEmpty with resources := [{ data := [1], mime := "image/png", declaredName := "a" }] }

/-- A concrete note with two attachments holding identical bytes. -/
def noteDup : Note :=
  { noteEmpty with resources :=
      [{ data := [7], mime := "image/png", declaredName := "a" },
       { data := [7], mime := "image/png", declaredName := "b" }] }

/-- A concrete note with two different attachments deriving the same
display name and extension. -/
def noteClash : Note :=
  { noteEmpty with resources :=
      [{ data := [1], mime := "image/png", declaredName := "a" },
       { data := [2], mime := "image/png", declaredName := "a" }] }

/-- A concrete wall-clock instant, distinct from the zero time. -/
def dtNow : DateTime :=
  { year := 2020, month := 1, day := 2, hour := 3, minute := 4, second := 5 }

/-- `true` when the buffer contains three consecutive newline characters
(equivalently: a run of three or more newlines). -/
def hasTriple : List Char → Bool
  | a :: b :: c :: rest =>
    (a = '\n' && b = '\n' && c = '\n') || hasTriple (b :: c :: rest)
  | _ => false

/-- `true` when the buffer ends with a newline that is not preceded by
another newline: exactly one trailing newline. -/
def endsWithSingleNl (l : List Char) : Bool :=
  match l.reverse with
  | [] => false
  | c :: rest =>
    c = '\n' && (match rest with
                 | [] => true
                 | d :: _ => d ≠ '\n')

/-! Equation lemmas for `hasTriple`, stated once so later proofs do not
depend on the shape of the compiled pattern match. -/

theorem hasTriple_nil : hasTriple [] = false := rfl

theorem hasTriple_one (a : Char) : hasTriple [a] = false := rfl

theorem hasTriple_two (a b : Char) : hasTriple [a, b] = false := rfl

theorem hasTriple_cons3 (a b c : Char) (rest : List Char) :
    hasTriple (a :: b :: c :: rest) =
      ((a = '\n' && b = '\n' && c = '\n') || hasTriple (b :: c :: rest)) := rfl

/-- C8: the title-prepend stage, when no sticky error is set, turns the
content into a level-1 heading of the verbatim (unescaped) note title,
followed by a blank line, followed by the previous content. -/
theorem prependTitle_spec (c : Converter) (note : Note) (md : MdNote)
    (h : c.err = none) :
    prependTitle c note md =
      { md with content := ("# " ++ note.title ++ "\n\n").data ++ md.content } := by
  simp [prependTitle, h]

/-- Witness for `prependTitle_spec` at a concrete converter and note. -/
theorem prependTitle_spec_witness :
    prependTitle cBase noteEmpty { content := "X".data } =
      { ({ content := "X".data } : MdNote) with
        content := ("# " ++ noteEmpty.title ++ "\n\n").data ++ ("X".data : List Char) } :=
  prependTitle_spec cBase noteEmpty { content := "X".data } rfl

/-- C7 counterexample: the empty tag template contains zero occurrences of
the tag token, yet `NewConverter` accepts it, because the empty template is
replaced by the default template before the occurrence count is checked. -/
theorem newConverter_accepts_empty_template :
    NewConverter "" false false false = .ok cBase := rfl

/-- C7 (amended): construction-time validation of the tag template — a
non-empty template is accepted exactly when it contains exactly one tag
token, and the empty template is replaced by the default template (which
contains exactly one token) and accepted. -/
theorem newConverter_validation (t : String) (efm eh esc : Bool) :
    (t ≠ "" →
      (exceptIsOk (NewConverter t efm eh esc) = true ↔ substrCount t tagToken = 1)) ∧
    (t = "" → exceptIsOk (NewConverter t efm eh esc) = true) := by
  constructor
  · intro ht
    simp only [NewConverter, if_neg ht]
    by_cases h1 : substrCount t tagToken = 1
    · simp [h1, exceptIsOk]
    · simp [h1, exceptIsOk]
  · intro ht
    subst ht
    have h1 : substrCount DefaultTagTemplate tagToken = 1 := by decide
    simp [NewConverter, h1, exceptIsOk]

/-- Witness for `newConverter_validation`: a non-empty template with no
token is rejected (the iff instance), and the empty template is accepted. -/
theorem newConverter_validation_witness :
    (exceptIsOk (NewConverter "x" false false false) = true ↔
      substrCount "x" tagToken = 1) ∧
    exceptIsOk (NewConverter "" true true true) = true :=
  ⟨(newConverter_validation "x" false false false).1 (by decide),
   (newConverter_validation "" true true true).2 rfl⟩

/-- C4 counterexample: with a failing front-matter template engine the
whole conversion panics (modelled as `Except.error` at the outer level) —
the failure is not surfaced as a returned error result. -/
theorem convert_panics_on_template_error :
    Convert extTemplateFail cFM noteEmpty 0 dtZero = .error "template boom" := rfl

/-- C4 (amended): a parse or render failure of the front-matter template
makes `addFrontMatter` panic with that failure (aborting the process),
instead of recording it as an error result. -/
theorem addFrontMatter_panics (E : Ext) (c : Converter) (note : Note) (md : MdNote)
    (e : String)
    (h : E.renderTemplate c.frontMatterTemplate
        { ctime := E.formatDate md.ctime, mtime := E.formatDate md.mtime,
          title := note.title, attributes := note.attributes,
          tagList := E.tagListFM note.tags } = .error e) :
    addFrontMatter E c note md = .error e := by
  simp [addFrontMatter, h]

/-- Witness for `addFrontMatter_panics` at a concrete failing engine. -/
theorem addFrontMatter_panics_witness :
    addFrontMatter extTemplateFail cFM noteEmpty {} = .error "template boom" :=
  addFrontMatter_panics extTemplateFail cFM noteEmpty {} "template boom" rfl

/-- C1 is violated by the code: `addFrontMatter` does not check the sticky
error (contradicting the comment on the `err` field that every conversion
step should check it and skip execution).  At a note whose markdown
rendering fails, with front matter enabled, the conversion returns the
sticky error AND the rendered front matter has still been prepended to the
content (`content = "FM\n"` instead of being left unmodified and empty). -/
theorem convert_front_matter_despite_error :
    Convert extRenderFail cFM noteEmpty 0 dtZero =
      .ok ({ cFM with err := some "render boom" },
           { content := "FM\n".data, media := [], ctime := dtZero, mtime := dtZero },
           some "render boom") := rfl

/-- C2: two attachments with byte-identical decoded content collapse to a
single entry of the media index: the index is keyed by the content hash of
the decoded bytes (not by any declared identifier), both attachments
produce the same key, and a media-reference lookup for that key resolves
to the one existing entry's assigned filename. -/
theorem mapResources_dedups (E : Ext) (c : Converter) (note : Note) (md : MdNote)
    (cnt : Nat) (r1 r2 : EnexResource) (p : Bytes)
    (hres : note.resources = [r1, r2])
    (hmedia : md.media = [])
    (hd1 : E.decode r1.data = .ok p)
    (hd2 : E.decode r2.data = .ok p) :
    ∃ res : MdResource,
      (mapResources E c note md cnt).2.1.media = [(E.hash p, res)] ∧
      lookupKey (E.hash p) (mapResources E c note md cnt).2.1.media = some res := by
  refine ⟨{ name := toString cnt ++ "_" ++ toString 1 ++ (E.nameExt r2).2,
            rType := if E.isImage r2.mime then RType.image else RType.file,
            content := p }, ?_, ?_⟩ <;>
    simp [mapResources, hres, hmedia, mapLoop, hd1, hd2, mapInsert, lookupKey]

/-- Witness for `mapResources_dedups`: a note with the same byte payload
attached twice yields a one-entry media index. -/
theorem mapResources_dedups_witness :
    ∃ res : MdResource,
      (mapResources extOk cBase noteDup {} 0).2.1.media = [(extOk.hash [7], res)] ∧
      lookupKey (extOk.hash [7]) (mapResources extOk cBase noteDup {} 0).2.1.media =
        some res :=
  mapResources_dedups extOk cBase noteDup {} 0 _ _ [7] rfl rfl rfl rfl

/-- C3: two attachments with the same derived name and extension but
different content keep two distinct entries in the media index, the first
display name is unsuffixed and the second carries the numeric suffix taken
from the occurrence counter (`-1` for the first collision). -/
theorem mapResources_name_clash (E : Ext) (c : Converter) (note : Note) (md : MdNote)
    (cnt : Nat) (r1 r2 : EnexResource) (p1 p2 : Bytes) (n x : String)
    (hres : note.resources = [r1, r2])
    (hmedia : md.media = [])
    (hd1 : E.decode r1.data = .ok p1)
    (hd2 : E.decode r2.data = .ok p2)
    (hn1 : E.nameExt r1 = (n, x))
    (hn2 : E.nameExt r2 = (n, x))
    (hh : E.hash p1 ≠ E.hash p2) :
    (mapResources E c note md cnt).2.2.map (fun e => e.display) = [n, n ++ "-1"] ∧
    (mapResources E c note md cnt).2.1.media.length = 2 := by
  have h1 : (toString (1 : Nat)) = "1" := rfl
  constructor
  · simp [mapResources, hres, hmedia, mapLoop, hd1, hd2, hn1, hn2, hh,
      mapInsert, namesSet, lookupKey, h1]
    rw [String.append_assoc]
    rfl
  · simp [mapResources, hres, hmedia, mapLoop, hd1, hd2, hn1, hn2, hh,
      mapInsert, namesSet, lookupKey, h1]

/-- Witness for `mapResources_name_clash`: two different payloads with the
same declared name produce the displays `a` and `a-1` and two entries. -/
theorem mapResources_name_clash_witness :
    (mapResources extOk cBase noteClash {} 0).2.2.map (fun e => e.display) =
      ["a", "a" ++ "-1"] ∧
    (mapResources extOk cBase noteClash {} 0).2.1.media.length = 2 :=
  mapResources_name_clash extOk cBase noteClash {} 0 _ _ [1] [2] "a" ".bin"
    rfl rfl rfl rfl rfl rfl (by decide)

/-- Every entry the `mapResources` loop records carries the deterministic
stored filename made of the positional counter, an underscore, the loop
index and the derived extension. -/
theorem mapLoop_trace_names (E : Ext) (cntp : Nat) (rs : List EnexResource) :
    ∀ (i : Nat) (e : Option String) (names : NamesMap) (m : Media)
      (t : List TraceEntry),
      (∀ x ∈ t, x.res.name = toString cntp ++ "_" ++ toString x.idx ++ (E.nameExt x.resource).2) →
      ∀ x ∈ (mapLoop E cntp rs i e names m t).trace,
        x.res.name = toString cntp ++ "_" ++ toString x.idx ++ (E.nameExt x.resource).2 := by
  induction rs with
  | nil =>
    intro i e names m t ht
    simpa [mapLoop] using ht
  | cons r rs ih =>
    intro i e names m t ht
    cases hd : E.decode r.data with
    | error msg => simpa [mapLoop, hd] using ht
    | ok p =>
      simp only [mapLoop, hd]
      apply ih
      intro x hx
      rcases List.mem_append.1 hx with h | h
      · exact ht x h
      · simp only [List.mem_singleton] at h
        subst h
        rfl

/-- The loop indices recorded in the trace continue the incoming trace with
consecutive numbers starting at the initial loop index. -/
theorem mapLoop_trace_idx (E : Ext) (cntp : Nat) (rs : List EnexResource) :
    ∀ (i : Nat) (e : Option String) (names : NamesMap) (m : Media)
      (t : List TraceEntry),
      ∃ k, (mapLoop E cntp rs i e names m t).trace.map (fun x => x.idx) =
        t.map (fun x => x.idx) ++ List.range' i k := by
  induction rs with
  | nil =>
    intro i e names m t
    exact ⟨0, by simp [mapLoop]⟩
  | cons r rs ih =>
    intro i e names m t
    cases hd : E.decode r.data with
    | error msg => exact ⟨0, by simp [mapLoop, hd]⟩
    | ok p =>
      simp only [mapLoop, hd]
      obtain ⟨k, hk⟩ := ih (i + 1) none _ _ _
      refine ⟨k + 1, ?_⟩
      rw [hk]
      simp [List.range'_succ]

/-- C9: for every attachment the `mapResources` loop processed, the stored
filename assigned in its resource entry is the decimal positional counter,
an underscore, the decimal attachment index, and the derived extension —
independent of the display name; the recorded indices are exactly the
positions 0, 1, … of the processed attachments. -/
theorem mapResources_stored_names (E : Ext) (c : Converter) (note : Note)
    (md : MdNote) (cnt : Nat) :
    (∀ x ∈ (mapResources E c note md cnt).2.2,
       x.res.name = toString cnt ++ "_" ++ toString x.idx ++ (E.nameExt x.resource).2) ∧
    (mapResources E c note md cnt).2.2.map (fun x => x.idx) =
      List.range (mapResources E c note md cnt).2.2.length := by
  constructor
  · intro x hx
    have := mapLoop_trace_names E cnt note.resources 0 c.err [] md.media []
      (by intro y hy; simp at hy)
    exact this x hx
  · obtain ⟨k, hk⟩ := mapLoop_trace_idx E cnt note.resources 0 c.err [] md.media []
    have h1 : (mapResources E c note md cnt).2.2.map (fun x => x.idx) =
        List.range' 0 k := by simpa [mapResources] using hk
    have h2 : (mapResources E c note md cnt).2.2.length = k := by
      have := congrArg List.length h1
      simpa using this
    rw [h1, h2, List.range_eq_range']

/-- Witness for `mapResources_stored_names`: the single attachment of
`noteOneRes` is stored as `0_0.bin`. -/
theorem mapResources_stored_names_witness :
    (⟨0, { data := [1], mime := "image/png", declaredName := "a" }, "a", "[1]",
      { name := "0_0.bin", rType := RType.image, content := [1] }⟩ : TraceEntry) ∈
        (mapResources extOk cBase noteOneRes {} 0).2.2 ∧
    (⟨0, { data := [1], mime := "image/png", declaredName := "a" }, "a", "[1]",
      { name := "0_0.bin", rType := RType.image, content := [1] }⟩ : TraceEntry).res.name =
      toString 0 ++ "_" ++ toString 0 ++ (extOk.nameExt
        { data := [1], mime := "image/png", declaredName := "a" }).2 :=
  ⟨by decide,
   (mapResources_stored_names extOk cBase noteOneRes {} 0).1 _ (by decide)⟩

/-- Prepending a non-newline character cannot create a triple newline. -/
theorem hasTriple_cons_false (c : Char) (t : List Char) (hc : c ≠ '\n')
    (ht : hasTriple t = false) : hasTriple (c :: t) = false := by
  match t with
  | [] => exact hasTriple_two c '\n' ▸ hasTriple_one c
  | [d] => exact hasTriple_two c d
  | d :: e :: rest =>
    rw [hasTriple_cons3]
    simp [hc, ht]

/-- One newline before a non-newline character cannot create a triple. -/
theorem hasTriple_nl_cons (c : Char) (t : List Char) (hc : c ≠ '\n')
    (h : hasTriple (c :: t) = false) : hasTriple ('\n' :: c :: t) = false := by
  match t with
  | [] => exact hasTriple_two '\n' c ▸ rfl
  | d :: rest =>
    rw [hasTriple_cons3]
    simp [hc, h]

/-- Two newlines before a non-newline character cannot create a triple. -/
theorem hasTriple_nlnl_cons (c : Char) (t : List Char) (hc : c ≠ '\n')
    (h : hasTriple ('\n' :: c :: t) = false) :
    hasTriple ('\n' :: '\n' :: c :: t) = false := by
  rw [hasTriple_cons3]
  simp [hc, h]

/-- The collapse pass leaves no run of three or more newlines: every
pending run is flushed as at most two newlines followed by a non-newline
character (or the end of the buffer). -/
theorem collapseAux_no_triple (l : List Char) :
    ∀ k, hasTriple (collapseAux k l) = false := by
  induction l with
  | nil =>
    intro k
    match k with
    | 0 => rfl
    | 1 => rfl
    | n + 2 =>
      have hm : min (n + 2) 2 = 2 := by omega
      simp only [collapseAux, hm]
      rfl
  | cons c cs ih =>
    intro k
    by_cases hc : c = '\n'
    · subst hc
      simpa only [collapseAux, if_pos rfl] using ih (k + 1)
    · have h1 : hasTriple (c :: collapseAux 0 cs) = false :=
        hasTriple_cons_false c _ hc (ih 0)
      have hmain : collapseAux k (c :: cs) =
          List.replicate (min k 2) '\n' ++ c :: collapseAux 0 cs := by
        simp [collapseAux, hc]
      rw [hmain]
      match k with
      | 0 => simpa using h1
      | 1 => simpa [List.replicate] using hasTriple_nl_cons c _ hc h1
      | n + 2 =>
        have hm : min (n + 2) 2 = 2 := by omega
        rw [hm]
        simpa [List.replicate] using
          hasTriple_nlnl_cons c _ hc (hasTriple_nl_cons c _ hc h1)

/-- A buffer containing a triple newline still contains one after
appending more characters. -/
theorem hasTriple_append_left (A B : List Char) (h : hasTriple A = true) :
    hasTriple (A ++ B) = true := by
  induction A with
  | nil => exact absurd h (by simp [hasTriple_nil])
  | cons a A ih =>
    cases A with
    | nil => exact absurd h (by simp [hasTriple_one])
    | cons d A2 =>
      cases A2 with
      | nil => exact absurd h (by simp [hasTriple_two])
      | cons e r =>
        rw [hasTriple_cons3] at h
        rcases Bool.or_eq_true_iff.1 h with h | h
        · simp only [List.cons_append, hasTriple_cons3, h, Bool.true_or]
        · have := ih h
          simp only [List.cons_append] at this ⊢
          rw [hasTriple_cons3]
          simp [this]

/-- A leading segment of a buffer with no triple newline has none. -/
theorem hasTriple_pref (A B : List Char) (h : hasTriple (A ++ B) = false) :
    hasTriple A = false := by
  cases hA : hasTriple A with
  | false => rfl
  | true => exact absurd h (by simp [hasTriple_append_left A B hA])

/-- Trimming trailing newlines keeps a leading segment of the buffer. -/
theorem trimRightNl_pref (X : List Char) : ∃ B, X = trimRightNl X ++ B := by
  refine ⟨(X.reverse.takeWhile (fun c => c = '\n')).reverse, ?_⟩
  have h := List.takeWhile_append_dropWhile (p := fun c : Char => c = '\n')
    (l := X.reverse)
  calc X = X.reverse.reverse := (List.reverse_reverse X).symm
    _ = ((X.reverse.takeWhile (fun c => c = '\n')) ++
          (X.reverse.dropWhile (fun c => c = '\n'))).reverse := by rw [h]
    _ = trimRightNl X ++ (X.reverse.takeWhile (fun c => c = '\n')).reverse := by
          rw [List.reverse_append]; rfl

/-- The head of `dropWhile` fails the predicate. -/
theorem dropWhile_head_false {p : Char → Bool} :
    ∀ (l : List Char) (c : Char) (rest : List Char),
      l.dropWhile p = c :: rest → p c = false := by
  intro l
  induction l with
  | nil => intro c rest h; simp [List.dropWhile] at h
  | cons a l ih =>
    intro c rest h
    by_cases hp : p a
    · rw [List.dropWhile_cons_of_pos hp] at h
      exact ih c rest h
    · rw [List.dropWhile_cons_of_neg hp] at h
      cases h
      simpa using hp

/-- After trimming trailing newlines, the last character (if any) is not a
newline. -/
theorem trimRightNl_getLast (X : List Char) :
    ∀ c, (trimRightNl X).getLast? = some c → c ≠ '\n' := by
  intro c h
  rw [trimRightNl, List.getLast?_reverse] at h
  cases hd : X.reverse.dropWhile (fun c => c = '\n') with
  | nil => rw [hd] at h; simp at h
  | cons d rest =>
    rw [hd] at h
    simp only [List.head?_cons, Option.some.injEq] at h
    subst h
    have := dropWhile_head_false X.reverse d rest hd
    simpa using this

/-- Appending one newline to a buffer with no triple newline and whose last
character is not a newline yields a buffer with no triple newline. -/
theorem hasTriple_append_one_nl :
    ∀ (A : List Char), (∀ c, A.getLast? = some c → c ≠ '\n') →
      hasTriple A = false → hasTriple (A ++ ['\n']) = false := by
  intro A
  induction A with
  | nil => intro _ _; rfl
  | cons a A ih =>
    cases A with
    | nil =>
      intro _ _
      exact hasTriple_two a '\n'
    | cons b A2 =>
      cases A2 with
      | nil =>
        intro hL _
        have hb : b ≠ '\n' := hL b (by simp)
        show hasTriple [a, b, '\n'] = false
        rw [hasTriple_cons3]
        simp [hb, hasTriple_two]
      | cons c2 r =>
        intro hL h
        rw [hasTriple_cons3] at h
        rcases Bool.or_eq_false_iff.1 h with ⟨hw, hr⟩
        have hL' : ∀ x, (b :: c2 :: r).getLast? = some x → x ≠ '\n' := by
          intro x hx
          apply hL
          rwa [List.getLast?_cons_cons]
        have hrec := ih hL' hr
        simp only [List.cons_append] at hrec ⊢
        rw [hasTriple_cons3]
        simp [hw, hrec]

/-- The normalized content of `trimSpaces` has no triple newline. -/
theorem trimSpacesContent_no_triple (l : List Char) :
    hasTriple (trimSpacesContent l) = false := by
  have h1 : hasTriple (collapseNl l) = false := collapseAux_no_triple l 0
  obtain ⟨B, hB⟩ := trimRightNl_pref (collapseNl l)
  have h2 : hasTriple (trimRightNl (collapseNl l)) = false :=
    hasTriple_pref _ B (hB ▸ h1)
  exact hasTriple_append_one_nl _ (trimRightNl_getLast _) h2

/-- The normalized content of `trimSpaces` ends with exactly one newline. -/
theorem trimSpacesContent_single_nl (l : List Char) :
    endsWithSingleNl (trimSpacesContent l) = true := by
  unfold trimSpacesContent endsWithSingleNl
  rw [List.reverse_append]
  cases hd : (trimRightNl (collapseNl l)).reverse with
  | nil => simp
  | cons d rest =>
    have hg : (trimRightNl (collapseNl l)).getLast? = some d := by
      rw [← List.head?_reverse, hd, List.head?_cons]
    have hd' : d ≠ '\n' := trimRightNl_getLast _ d hg
    simp [hd, hd']

/-- C5: after the whitespace-normalization stage runs (no sticky error),
the content has no run of three or more consecutive newlines and ends with
exactly one trailing newline. -/
theorem trimSpaces_normalized (c : Converter) (md : MdNote) (h : c.err = none) :
    hasTriple (trimSpaces c md).content = false ∧
    endsWithSingleNl (trimSpaces c md).content = true := by
  have hts : (trimSpaces c md).content = trimSpacesContent md.content := by
    simp [trimSpaces, h]
  rw [hts]
  exact ⟨trimSpacesContent_no_triple md.content, trimSpacesContent_single_nl md.content⟩

/-- Witness for `trimSpaces_normalized` at a buffer with a four-newline run
and two trailing newlines. -/
theorem trimSpaces_normalized_witness :
    hasTriple (trimSpaces cBase { content := "a\n\n\n\nb\n\n".data }).content = false ∧
    endsWithSingleNl (trimSpaces cBase { content := "a\n\n\n\nb\n\n".data }).content = true :=
  trimSpaces_normalized cBase { content := "a\n\n\n\nb\n\n".data } rfl

/-- If every attachment decodes and the incoming sticky error is clear, the
resource loop ends with a clear sticky error. -/
theorem mapLoop_err_pres (E : Ext) (cntp : Nat) :
    ∀ (rs : List EnexResource), (∀ r ∈ rs, ∃ p, E.decode r.data = .ok p) →
      ∀ (i : Nat) (e : Option String) (names : NamesMap) (m : Media)
        (t : List TraceEntry), e = none →
        (mapLoop E cntp rs i e names m t).err = none := by
  intro rs
  induction rs with
  | nil =>
    intro _ i e names m t he
    simpa [mapLoop] using he
  | cons r rs ih =>
    intro hdec i e names m t _
    obtain ⟨p, hp⟩ := hdec r (List.mem_cons_self r rs)
    simp only [mapLoop, hp]
    exact ih (fun r' hr' => hdec r' (List.mem_cons_of_mem r hr')) (i + 1) none _ _ _ rfl

/-- With at least one attachment, a successful first decode overwrites any
incoming sticky error, so an all-decodable attachment list always ends the
loop with a clear sticky error, whatever error it started with. -/
theorem mapLoop_err_clears (E : Ext) (cntp : Nat) (r : EnexResource)
    (rs : List EnexResource)
    (hdec : ∀ r' ∈ r :: rs, ∃ p, E.decode r'.data = .ok p) :
    ∀ (i : Nat) (e : Option String) (names : NamesMap) (m : Media)
      (t : List TraceEntry),
      (mapLoop E cntp (r :: rs) i e names m t).err = none := by
  intro i e names m t
  obtain ⟨p, hp⟩ := hdec r (List.mem_cons_self r rs)
  simp only [mapLoop, hp]
  exact mapLoop_err_pres E cntp rs
    (fun r' hr' => hdec r' (List.mem_cons_of_mem r hr')) (i + 1) none _ _ _ rfl

/-- Whenever `Convert` returns normally, the returned error value is
exactly the converter's sticky error. -/
theorem Convert_ok_err (E : Ext) (c : Converter) (note : Note) (cnt : Nat)
    (now : DateTime) (r : Converter × MdNote × Option String)
    (h : Convert E c note cnt now = .ok r) : r.2.2 = r.1.err := by
  simp only [Convert] at h
  split at h
  · split at h
    · simp at h
    · injection h with h2
      rw [← h2]
  · injection h with h2
    rw [← h2]

/-- C6: if a note's created or updated timestamp fails to parse in the
compact `YYYYMMDDThhmmssZ` layout, the conversion nevertheless succeeds
with no error, the failure diagnostic is logged, and the computed instant
is the wall-clock time `now` (given that the other collaborators succeed:
all attachments decode, the renderer and template engine return ok). -/
theorem convert_lenient_dates (E : Ext) (c : Converter) (note : Note)
    (cnt : Nat) (now : DateTime)
    (herr : c.err = none)
    (hdec : ∀ r ∈ note.resources, ∃ p, E.decode r.data = .ok p)
    (hren : ∀ h hl sc, ∃ o, E.renderMarkdown h hl sc = .ok o)
    (hfm : ∀ t d, ∃ s, E.renderTemplate t d = .ok s) :
    ∃ c' md, Convert E c note cnt now = .ok (c', md, none) ∧
      (parseEvernoteDate note.created = none →
        md.ctime = now ∧ (convertEvernoteDate now note.created).2 = true) ∧
      (parseEvernoteDate note.updated = none →
        md.mtime = now ∧ (convertEvernoteDate now note.updated).2 = true) := by
  choose f hf using hren
  choose g hg using hfm
  have hml : (mapLoop E cnt note.resources 0 c.err [] [] []).err = none :=
    mapLoop_err_pres E cnt note.resources hdec 0 c.err [] [] [] herr
  cases hb : c.enableFrontMatter
  all_goals
    simp only [Convert, mapResources, normalizeHTML, toMarkdown, prependTags,
      prependTitle, trimSpaces, addDates, addFrontMatter, hml, hf, hg, hb,
      Option.isSome_none, Bool.false_eq_true, eq_self_iff_true,
      if_false, if_true, ite_true, ite_false]
  all_goals
    refine ⟨_, _, rfl, ?_, ?_⟩ <;>
    · intro hp
      exact ⟨by simp [convertEvernoteDate, hp], by simp [convertEvernoteDate, hp]⟩

/-- Witness for `convert_lenient_dates`: the malformed timestamps of
`noteEmpty` make the computed instants equal to the supplied clock. -/
theorem convert_lenient_dates_witness :
    ∃ c' md, Convert extOk cBase noteEmpty 0 dtNow = .ok (c', md, none) ∧
      (parseEvernoteDate noteEmpty.created = none →
        md.ctime = dtNow ∧ (convertEvernoteDate dtNow noteEmpty.created).2 = true) ∧
      (parseEvernoteDate noteEmpty.updated = none →
        md.mtime = dtNow ∧ (convertEvernoteDate dtNow noteEmpty.updated).2 = true) :=
  convert_lenient_dates extOk cBase noteEmpty 0 dtNow rfl
    (by intro r hr; simp [noteEmpty] at hr)
    (fun h hl sc => ⟨h, rfl⟩)
    (fun _ _ => ⟨"FM\n", rfl⟩)

/-- C10: the sticky error lives on the long-lived converter and `Convert`
does not reset it; after a failed conversion, converting a note with no
attachments returns the same stale error (with the guarded stages skipped,
so the computed instants stay at the zero time), while converting a note
whose attachments all decode clears the stale error during resource
mapping (each successful decode overwrites `c.err`). -/
theorem convert_stale_sticky_error (E : Ext) (c c1 : Converter)
    (note1 note2 note3 : Note) (cnt1 cnt2 cnt3 : Nat) (now1 now2 : DateTime)
    (md1 : MdNote) (e : String)
    (h1 : Convert E c note1 cnt1 now1 = .ok (c1, md1, some e))
    (hfm : ∀ t d, ∃ s, E.renderTemplate t d = .ok s)
    (h2 : note2.resources = []) :
    (∃ c2 md2, Convert E c1 note2 cnt2 now2 = .ok (c2, md2, some e) ∧
      md2.ctime = dtZero ∧ md2.mtime = dtZero) ∧
    (∀ (r : EnexResource) (rs : List EnexResource),
      note3.resources = r :: rs →
      (∀ r' ∈ note3.resources, ∃ p, E.decode r'.data = .ok p) →
      (mapResources E c1 note3 {} cnt3).1.err = none) := by
  have hc1 : c1.err = some e := by
    have := Convert_ok_err E c note1 cnt1 now1 (c1, md1, some e) h1
    exact this.symm
  choose g hg using hfm
  constructor
  · cases hb : c1.enableFrontMatter
    all_goals
      simp only [Convert, mapResources, normalizeHTML, toMarkdown, prependTags,
        prependTitle, trimSpaces, addDates, addFrontMatter, mapLoop, h2, hc1, hg, hb,
        Option.isSome_some, Bool.false_eq_true, eq_self_iff_true,
        if_false, if_true, ite_true, ite_false]
    all_goals exact ⟨_, _, rfl, rfl, rfl⟩
  · intro r rs h3 hdec3
    rw [h3] at hdec3
    simp only [mapResources, h3]
    exact mapLoop_err_clears E cnt3 r rs hdec3 0 c1.err [] [] []

/-- Witness for `convert_stale_sticky_error`: a failing renderer leaves a
stale `render boom` on the converter, which a second, attachment-free
conversion returns unchanged, while `noteOneRes` would clear it. -/
theorem convert_stale_sticky_error_witness :
    ((∃ c2 md2, Convert extRenderFail
        { cBase with err := some "render boom" } noteEmpty 1 dtNow =
          .ok (c2, md2, some "render boom") ∧
        md2.ctime = dtZero ∧ md2.mtime = dtZero) ∧
    (∀ (r : EnexResource) (rs : List EnexResource),
      noteOneRes.resources = r :: rs →
      (∀ r' ∈ noteOneRes.resources, ∃ p, extRenderFail.decode r'.data = .ok p) →
      (mapResources extRenderFail { cBase with err := some "render boom" }
        noteOneRes {} 2).1.err = none)) :=
  convert_stale_sticky_error extRenderFail cBase
    { cBase with err := some "render boom" } noteEmpty noteEmpty noteOneRes
    0 1 2 dtNow dtNow
    { content := [], media := [], ctime := dtZero, mtime := dtZero } "render boom"
    rfl (fun _ _ => ⟨"FM\n", rfl⟩) rfl

end Evernote2md
